import Mathlib

/-!
Shallow embedding of the trading ledger core of the TradingApp repository:
the ledger store (`database.py`), the trading engine (`trading_logic.py`),
the account summary, and the inline ledger reset in `app.py`.

Currency amounts and prices are modelled as rationals (the source uses
Python floats; the spec asks for equalities within rounding tolerance, which
are exact here); share quantities are integers (SQLite INTEGER).

The price oracle `stock_data.get_cached_price` is called by the engine but
is not defined in the repository sources; it is modelled from the spec
(section 6: it returns a current price, or an empty result, or raises; the
engine treats the empty result as price unavailable).
-/

/-- Currency amounts and prices. -/
abbrev Money := Rat

/-- One row of the `trades` table (database.py, CREATE TABLE trades):
total_cost is quantity * price, computed by log_trade. -/
structure Trade where
  ticker : String
  order_type : String
  quantity : Int
  price : Money
  total_cost : Money
deriving DecidableEq

/-- The persisted ledger: the single `account` row (balance and the
immutable initial_balance), the `positions` table (ticker is the primary
key), and the append-only `trades` table. -/
structure LedgerState where
  balance : Money
  initial_balance : Money
  positions : List (String × Int × Money)
  trades : List Trade
deriving DecidableEq

/-- database.initialize_database: a fresh account holds $100,000 with no
positions and no trades. -/
def initState : LedgerState := ⟨100000, 100000, [], []⟩

/-- database.get_position: the stored (quantity, average_price) row for the
ticker, or (0, 0.0) when no row exists (absence is not an error). -/
def get_position (st : LedgerState) (ticker : String) : Int × Money :=
  match st.positions.find? (fun e => e.1 == ticker) with
  | some e => (e.2.1, e.2.2)
  | none => (0, 0)

/-- database.update_position: REPLACE INTO (delete any row with this primary
key, insert the new row) when the new quantity is positive; DELETE the row
when the quantity is zero or less. -/
def update_position (st : LedgerState) (ticker : String) (new_quantity : Int)
    (new_average_price : Money) : LedgerState :=
  if 0 < new_quantity then
    { st with positions :=
        (ticker, new_quantity, new_average_price) ::
          st.positions.filter (fun e => !(e.1 == ticker)) }
  else
    { st with positions := st.positions.filter (fun e => !(e.1 == ticker)) }

/-- database.update_account_balance: overwrites the balance of the single
account row. -/
def update_account_balance (st : LedgerState) (new_balance : Money) : LedgerState :=
  { st with balance := new_balance }

/-- database.log_trade: appends one row with total_cost = quantity * price. -/
def log_trade (st : LedgerState) (ticker order_type : String) (quantity : Int)
    (price : Money) : LedgerState :=
  { st with trades :=
      st.trades ++ [⟨ticker, order_type, quantity, price, (quantity : Money) * price⟩] }

/-- Modelled from the spec: the price oracle stock_data.get_cached_price is
called by trading_logic but not defined under the repository sources.  Per
spec section 6 a price query returns a current price, or an empty result
(None), or raises an exception. -/
inductive OracleResult where
  | price (p : Money)
  | empty
  | exc
deriving DecidableEq

/-- Which ledger writes report success during one engine attempt: models the
sqlite errors that make database.update_account_balance, update_position and
log_trade catch the error and return False.  compensate_ok governs the
compensating balance write, whose return value the engine ignores. -/
structure StorageFaults where
  balance_write_ok : Bool
  position_write_ok : Bool
  compensate_ok : Bool
  log_ok : Bool
deriving DecidableEq

/-- The external conditions one engine attempt runs under. -/
structure Env where
  oracle : OracleResult
  faults : StorageFaults
deriving DecidableEq

/-- All storage writes succeed. -/
def allOk : StorageFaults := ⟨true, true, true, true⟩

/-- A price is available and all storage writes succeed. -/
def goodEnv (p : Money) : Env := ⟨OracleResult.price p, allOk⟩

/-- The structured result dict returned by execute_buy and execute_sell:
always carries success and message; the remaining fields are present only on
the paths that set them. -/
structure TradeResult where
  success : Bool
  message : String
  ticker : Option String
  quantity : Option Int
  price : Option Money
  total_cost : Option Money
  proceeds : Option Money
  pnl : Option Money
  new_balance : Option Money
deriving DecidableEq

/-- A failure dict: success False plus a message, nothing else. -/
def failResult (msg : String) : TradeResult :=
  ⟨false, msg, none, none, none, none, none, none, none⟩

/-- Trace of the ledger writes one engine call attempted, recording the
value written and whether the store reported success. -/
inductive WriteEvent where
  | balanceWrite (b : Money) (ok : Bool)
  | positionWrite (ticker : String) (q : Int) (avg : Money) (ok : Bool)
  | tradeLog (ticker order_type : String) (q : Int) (p : Money) (ok : Bool)
deriving DecidableEq

/-- The body of trading_logic.execute_buy (the function inside the retry
decorator).  quantity_is_int models the Python isinstance(quantity, int)
check.  Except.error () models an exception escaping the body — the body has
no try/except, so an oracle exception propagates to the retry wrapper.  The
source formats prices to two decimals inside messages; here the price is
rendered with toString.  Python would raise ZeroDivisionError if
current_qty + quantity were 0; that needs a stored negative quantity, which
no reachable state has, and rational division by zero yields 0 here. -/
def execute_buy_body (env : Env) (st : LedgerState) (ticker : String)
    (quantity : Int) (quantity_is_int : Bool) :
    Except Unit (TradeResult × LedgerState × List WriteEvent) :=
  if quantity_is_int = false ∨ quantity ≤ 0 then
    Except.ok (failResult "Quantity must be a positive integer.", st, [])
  else
    match env.oracle with
    | OracleResult.exc => Except.error ()
    | OracleResult.empty =>
        Except.ok (failResult ("Could not fetch price for " ++ ticker ++ "."), st, [])
    | OracleResult.price latest_price =>
      let cost : Money := (quantity : Money) * latest_price
      let current_balance := st.balance
      if current_balance < cost then
        Except.ok (failResult "Insufficient funds.", st, [])
      else
        let new_balance := current_balance - cost
        if env.faults.balance_write_ok = false then
          Except.ok (failResult "Database error updating balance.", st,
            [WriteEvent.balanceWrite new_balance false])
        else
          let st1 := update_account_balance st new_balance
          let pos := get_position st1 ticker
          let current_qty := pos.1
          let current_avg_price := pos.2
          let total_existing_cost : Money := (current_qty : Money) * current_avg_price
          let new_quantity := current_qty + quantity
          let new_average_price := (total_existing_cost + cost) / (new_quantity : Money)
          if env.faults.position_write_ok = false then
            let st2 := if env.faults.compensate_ok then
                update_account_balance st1 current_balance
              else st1
            Except.ok (failResult "Database error updating position.", st2,
              [WriteEvent.balanceWrite new_balance true,
               WriteEvent.positionWrite ticker new_quantity new_average_price false,
               WriteEvent.balanceWrite current_balance env.faults.compensate_ok])
          else
            let st2 := update_position st1 ticker new_quantity new_average_price
            let st3 := if env.faults.log_ok then
                log_trade st2 ticker "BUY" quantity latest_price
              else st2
            Except.ok
              (⟨true,
                "Bought " ++ toString quantity ++ " " ++ ticker ++ " @ $" ++
                  toString latest_price,
                some ticker, some quantity, some latest_price, some cost,
                none, none, some new_balance⟩,
               st3,
               [WriteEvent.balanceWrite new_balance true,
                WriteEvent.positionWrite ticker new_quantity new_average_price true,
                WriteEvent.tradeLog ticker "BUY" quantity latest_price env.faults.log_ok])

/-- The body of trading_logic.execute_sell (inside the retry decorator).
The share check runs before the price query; a sell leaves the stored
average price unchanged; new_quantity = 0 makes update_position delete the
row; the realized P/L is proceeds minus quantity times the pre-sell average
price. -/
def execute_sell_body (env : Env) (st : LedgerState) (ticker : String)
    (quantity : Int) (quantity_is_int : Bool) :
    Except Unit (TradeResult × LedgerState × List WriteEvent) :=
  if quantity_is_int = false ∨ quantity ≤ 0 then
    Except.ok (failResult "Quantity must be a positive integer.", st, [])
  else
    let pos := get_position st ticker
    let current_qty := pos.1
    let avg_price := pos.2
    if current_qty < quantity then
      Except.ok (failResult ("Not enough shares of " ++ ticker ++ " to sell."), st, [])
    else
      match env.oracle with
      | OracleResult.exc => Except.error ()
      | OracleResult.empty =>
          Except.ok (failResult ("Could not fetch price for " ++ ticker ++ "."), st, [])
      | OracleResult.price latest_price =>
        let proceeds : Money := (quantity : Money) * latest_price
        let current_balance := st.balance
        let new_balance := current_balance + proceeds
        if env.faults.balance_write_ok = false then
          Except.ok (failResult "Database error updating balance.", st,
            [WriteEvent.balanceWrite new_balance false])
        else
          let st1 := update_account_balance st new_balance
          let new_quantity := current_qty - quantity
          if env.faults.position_write_ok = false then
            let st2 := if env.faults.compensate_ok then
                update_account_balance st1 current_balance
              else st1
            Except.ok (failResult "Database error updating position.", st2,
              [WriteEvent.balanceWrite new_balance true,
               WriteEvent.positionWrite ticker new_quantity avg_price false,
               WriteEvent.balanceWrite current_balance env.faults.compensate_ok])
          else
            let st2 := update_position st1 ticker new_quantity avg_price
            let st3 := if env.faults.log_ok then
                log_trade st2 ticker "SELL" quantity latest_price
              else st2
            let cost_basis_for_sold_shares : Money := (quantity : Money) * avg_price
            let pnl_trade := proceeds - cost_basis_for_sold_shares
            Except.ok
              (⟨true,
                "Sold " ++ toString quantity ++ " " ++ ticker ++ " @ $" ++
                  toString latest_price,
                some ticker, some quantity, some latest_price, none,
                some proceeds, some pnl_trade, some new_balance⟩,
               st3,
               [WriteEvent.balanceWrite new_balance true,
                WriteEvent.positionWrite ticker new_quantity avg_price true,
                WriteEvent.tradeLog ticker "SELL" quantity latest_price env.faults.log_ok])

/-- utils.retry: while attempts < max_attempts, call the function and return
its result; on an exception increment the attempt count and re-raise once it
reaches max_attempts, otherwise sleep with backoff and loop.  f i is attempt
number i (from 0); the second argument is the number of attempts remaining;
none models the implicit None returned when max_attempts is 0. -/
def retry_go {α : Type} (f : Nat → Except Unit α) :
    Nat → Nat → Option (Except Unit α)
  | _, 0 => none
  | attempt, n + 1 =>
    match f attempt with
    | Except.ok a => some (Except.ok a)
    | Except.error e =>
        if n = 0 then some (Except.error e) else retry_go f (attempt + 1) n

/-- trading_logic.execute_buy: the body wrapped in retry(max_attempts=2,
delay=1.0, exceptions=(Exception,)).  env i gives the oracle result and
storage faults seen by attempt i.  Re-running the body on the same state is
faithful because the body only raises before any ledger write. -/
def execute_buy (env : Nat → Env) (st : LedgerState) (ticker : String)
    (quantity : Int) (quantity_is_int : Bool) :
    Option (Except Unit (TradeResult × LedgerState × List WriteEvent)) :=
  retry_go (fun i => execute_buy_body (env i) st ticker quantity quantity_is_int) 0 2

/-- trading_logic.execute_sell: the body wrapped in retry(max_attempts=2). -/
def execute_sell (env : Nat → Env) (st : LedgerState) (ticker : String)
    (quantity : Int) (quantity_is_int : Bool) :
    Option (Except Unit (TradeResult × LedgerState × List WriteEvent)) :=
  retry_go (fun i => execute_sell_body (env i) st ticker quantity quantity_is_int) 0 2

/-- The final ledger state of a buy that returned without raising. -/
def runBuyState (env : Nat → Env) (st : LedgerState) (ticker : String)
    (quantity : Int) : Option LedgerState :=
  match execute_buy env st ticker quantity true with
  | some (Except.ok x) => some x.2.1
  | _ => none

/-- The final ledger state of a sell that returned without raising. -/
def runSellState (env : Nat → Env) (st : LedgerState) (ticker : String)
    (quantity : Int) : Option LedgerState :=
  match execute_sell env st ticker quantity true with
  | some (Except.ok x) => some x.2.1
  | _ => none

/-- Ledger states reachable from the freshly initialized database through
completed engine calls, under any oracle results and storage faults. -/
inductive Reachable : LedgerState → Prop where
  | init : Reachable initState
  | buy (env : Nat → Env) (ticker : String) (quantity : Int) (b : Bool)
      (st st2 : LedgerState) (r : TradeResult) (tr : List WriteEvent) :
      Reachable st →
      execute_buy env st ticker quantity b = some (Except.ok (r, st2, tr)) →
      Reachable st2
  | sell (env : Nat → Env) (ticker : String) (quantity : Int) (b : Bool)
      (st st2 : LedgerState) (r : TradeResult) (tr : List WriteEvent) :
      Reachable st →
      execute_sell env st ticker quantity b = some (Except.ok (r, st2, tr)) →
      Reachable st2

/-- trading_logic.get_portfolio_value: sum over all open positions of
quantity times the oracle price, falling back to the stored average price
when the price is unavailable. -/
def get_portfolio_value (prices : String → Option Money) (st : LedgerState) : Money :=
  st.positions.foldl
    (fun total e =>
      match prices e.1 with
      | some p => total + (e.2.1 : Money) * p
      | none => total + (e.2.1 : Money) * e.2.2) 0

/-- The six-field summary dict built by database.get_account_info. -/
structure AccountInfo where
  cash_balance : Money
  portfolio_value : Money
  total_equity : Money
  initial_balance : Money
  pnl : Money
  pnl_percent : Money
deriving DecidableEq

/-- The dict returned by the except branch of get_account_info. -/
def zeroAccountInfo : AccountInfo := ⟨0, 0, 0, 0, 0, 0⟩

/-- database.get_account_info: assembles the summary inside a try/except.
raised is true when one of the assembly steps (balance read, portfolio
valuation, initial-balance read) raised an exception; the except branch then
returns all six fields as 0.0.  Otherwise pnl = total_equity minus
initial_balance and pnl_percent is pnl / initial_balance * 100 when
initial_balance > 0, else 0. -/
def get_account_info (prices : String → Option Money) (raised : Bool)
    (st : LedgerState) : AccountInfo :=
  if raised then zeroAccountInfo
  else
    let cash_balance := st.balance
    let portfolio_value := get_portfolio_value prices st
    let total_equity := cash_balance + portfolio_value
    let initial_balance := st.initial_balance
    let pnl := total_equity - initial_balance
    let pnl_percent := if 0 < initial_balance then pnl / initial_balance * 100 else 0
    ⟨cash_balance, portfolio_value, total_equity, initial_balance, pnl, pnl_percent⟩

/-- The top-level functions database.py defines (the attributes of the db
module visible to app.py and trading_logic.py). -/
def database_module_functions : List String :=
  ["get_db_connection", "initialize_database", "get_account_balance",
   "update_account_balance", "log_trade", "get_position", "update_position",
   "get_all_positions", "get_positions", "get_account_info",
   "get_trade_history", "clear_cache"]

/-- The reset SQL inlined in app.load_demo_data: DELETE FROM trades, DELETE
FROM positions, UPDATE account SET balance = initial_balance. -/
def reset_ledger (st : LedgerState) : LedgerState :=
  { st with trades := [], positions := [], balance := st.initial_balance }

/-- The reset step of app.load_demo_data: it first evaluates
db.get_connection(), an attribute database.py does not define (the module
only has the context manager get_db_connection), so Python raises
AttributeError before any SQL runs and the inlined reset statements are
unreachable; the surrounding except handler reports the error. -/
def load_demo_data_reset (st : LedgerState) : Except String LedgerState :=
  if database_module_functions.contains "get_connection" then
    Except.ok (reset_ledger st)
  else
    Except.error "AttributeError: module database has no attribute get_connection"

/-- The ledger state after scenario A of the spec: buying 10 shares of AAPL
at $150 from the fresh account. -/
def stateA : LedgerState :=
  ⟨98500, 100000, [("AAPL", 10, 150)], [⟨"AAPL", "BUY", 10, 150, 1500⟩]⟩

/-- The ledger state after scenario B: buying 5 more shares at $180. -/
def stateB : LedgerState :=
  ⟨97600, 100000, [("AAPL", 15, 160)],
   [⟨"AAPL", "BUY", 10, 150, 1500⟩, ⟨"AAPL", "BUY", 5, 180, 900⟩]⟩

/-- All stored position rows have positive quantity. -/
def PosInv (st : LedgerState) : Prop := ∀ e ∈ st.positions, 0 < e.2.1

@[simp] theorem update_account_balance_positions (st : LedgerState) (b : Money) :
    (update_account_balance st b).positions = st.positions := rfl

@[simp] theorem update_account_balance_trades (st : LedgerState) (b : Money) :
    (update_account_balance st b).trades = st.trades := rfl

@[simp] theorem update_account_balance_balance (st : LedgerState) (b : Money) :
    (update_account_balance st b).balance = b := rfl

@[simp] theorem log_trade_positions (st : LedgerState) (tk o : String) (q : Int) (p : Money) :
    (log_trade st tk o q p).positions = st.positions := rfl

@[simp] theorem log_trade_balance (st : LedgerState) (tk o : String) (q : Int) (p : Money) :
    (log_trade st tk o q p).balance = st.balance := rfl

@[simp] theorem update_position_balance (st : LedgerState) (tk : String) (q : Int) (a : Money) :
    (update_position st tk q a).balance = st.balance := by
  unfold update_position; split <;> rfl

@[simp] theorem update_position_trades (st : LedgerState) (tk : String) (q : Int) (a : Money) :
    (update_position st tk q a).trades = st.trades := by
  unfold update_position; split <;> rfl

@[simp] theorem get_position_update_account_balance (st : LedgerState) (b : Money) (t : String) :
    get_position (update_account_balance st b) t = get_position st t := rfl

@[simp] theorem get_position_log_trade (st : LedgerState) (tk o : String) (q : Int) (p : Money)
    (t : String) : get_position (log_trade st tk o q p) t = get_position st t := rfl

/-- Rows whose key was filtered out cannot be found. -/
theorem find_filter_ne (l : List (String × Int × Money)) (t : String) :
    (l.filter (fun e => !(e.1 == t))).find? (fun e => e.1 == t) = none := by
  induction l with
  | nil => rfl
  | cons e l ih =>
    cases he : (e.1 == t) with
    | true => simp [List.filter_cons, he, ih]
    | false => simp [List.filter_cons, he, List.find?, ih]

/-- Upserting a positive quantity makes that row the stored position. -/
theorem get_position_update_self (st : LedgerState) (t : String) (q : Int) (a : Money)
    (h : 0 < q) : get_position (update_position st t q a) t = (q, a) := by
  unfold update_position
  rw [if_pos h]
  simp [get_position, List.find?]

/-- update_position with a non-positive quantity deletes the row. -/
theorem find_update_position_nonpos (st : LedgerState) (t : String) (q : Int) (a : Money)
    (h : q ≤ 0) :
    (update_position st t q a).positions.find? (fun e => e.1 == t) = none := by
  unfold update_position
  rw [if_neg (not_lt.mpr h)]
  exact find_filter_ne st.positions t

/-- A ticker with no stored row reads as the default (0, 0). -/
theorem get_position_of_find_none (st : LedgerState) (t : String)
    (h : st.positions.find? (fun e => e.1 == t) = none) : get_position st t = (0, 0) := by
  unfold get_position
  rw [h]

/-- PosInv only depends on the positions table. -/
theorem posInv_of_positions_eq {st1 st2 : LedgerState} (h : st1.positions = st2.positions)
    (hinv : PosInv st1) : PosInv st2 := by
  intro e he
  exact hinv e (h ▸ he)

/-- update_position preserves positivity of all stored quantities, whatever
quantity it is handed: a positive one is stored, a non-positive one deletes. -/
theorem posInv_update_position {st : LedgerState} (t : String) (q : Int) (a : Money)
    (hinv : PosInv st) : PosInv (update_position st t q a) := by
  unfold update_position
  split
  · intro e he
    rcases List.mem_cons.mp he with rfl | hmem
    · assumption
    · exact hinv e (List.mem_of_mem_filter hmem)
  · intro e he
    exact hinv e (List.mem_of_mem_filter he)

/-- retry with at least one attempt left returns the value of the first attempt
when that attempt does not raise. -/
theorem retry_go_first_ok {α : Type} (f : Nat → Except Unit α) (x : α) (a n : Nat)
    (h : f a = Except.ok x) : retry_go f a (n + 1) = some (Except.ok x) := by
  unfold retry_go
  rw [h]

/-- retry with two attempts: an exception on the first attempt is retried and
the returned value of the second attempt is surfaced. -/
theorem retry_go_second_ok {α : Type} (f : Nat → Except Unit α) (x : α) (a : Nat)
    (h0 : f a = Except.error ()) (h1 : f (a + 1) = Except.ok x) :
    retry_go f a 2 = some (Except.ok x) := by
  unfold retry_go
  rw [h0]
  simp [retry_go, h1]

/-- retry with two attempts: exceptions on both attempts re-raise the last
exception to the caller. -/
theorem retry_go_both_exc {α : Type} (f : Nat → Except Unit α) (a : Nat)
    (h0 : f a = Except.error ()) (h1 : f (a + 1) = Except.error ()) :
    retry_go f a 2 = some (Except.error ()) := by
  unfold retry_go
  rw [h0]
  simp [retry_go, h1]

/-- Any value returned by the retry wrapper was returned by some attempt. -/
theorem retry_go_ok_elim {α : Type} (f : Nat → Except Unit α) (x : α) :
    ∀ (n a : Nat), retry_go f a n = some (Except.ok x) → ∃ i, f i = Except.ok x := by
  intro n
  induction n with
  | zero => intro a h; simp [retry_go] at h
  | succ m ih =>
    intro a h
    unfold retry_go at h
    cases hf : f a with
    | ok y =>
      rw [hf] at h
      simp only [Option.some.injEq, Except.ok.injEq] at h
      exact ⟨a, by rw [hf, h]⟩
    | error e =>
      rw [hf] at h
      by_cases hm : m = 0
      · subst hm; simp at h
      · simp only [hm, if_false] at h
        exact ih (a + 1) h

/-- The buy body returns a structured result on every path except an oracle
exception, which escapes it (the body has no try/except). -/
theorem execute_buy_body_no_exc (env : Env) (st : LedgerState) (t : String) (q : Int)
    (b : Bool) (h : env.oracle ≠ OracleResult.exc) :
    ∃ x, execute_buy_body env st t q b = Except.ok x := by
  unfold execute_buy_body
  split
  · exact ⟨_, rfl⟩
  · cases henv : env.oracle with
    | price p =>
      simp only
      split
      · exact ⟨_, rfl⟩
      · split
        · exact ⟨_, rfl⟩
        · split
          · exact ⟨_, rfl⟩
          · exact ⟨_, rfl⟩
    | empty => exact ⟨_, rfl⟩
    | exc => exact absurd henv h

/-- The sell body returns a structured result on every path except an oracle
exception. -/
theorem execute_sell_body_no_exc (env : Env) (st : LedgerState) (t : String) (q : Int)
    (b : Bool) (h : env.oracle ≠ OracleResult.exc) :
    ∃ x, execute_sell_body env st t q b = Except.ok x := by
  unfold execute_sell_body
  split
  · exact ⟨_, rfl⟩
  · split
    · rename_i henv
      exact absurd henv h
    · dsimp only
      split
      · exact ⟨_, rfl⟩
      · exact ⟨_, rfl⟩
    · dsimp only
      split
      · exact ⟨_, rfl⟩
      · split
        · exact ⟨_, rfl⟩
        · split
          · exact ⟨_, rfl⟩
          · exact ⟨_, rfl⟩

/-- Every state the buy body can return keeps all position quantities
positive: the only position write stores current quantity plus the positive
bought quantity, and update_position deletes on non-positive input. -/
theorem execute_buy_body_posInv (env : Env) (st : LedgerState) (t : String) (q : Int)
    (b : Bool) (r : TradeResult) (st2 : LedgerState) (tr : List WriteEvent)
    (h : execute_buy_body env st t q b = Except.ok (r, st2, tr)) (hinv : PosInv st) :
    PosInv st2 := by
  unfold execute_buy_body at h
  by_cases hq : (b = false ∨ q ≤ 0)
  · rw [if_pos hq] at h
    simp only [Except.ok.injEq, Prod.mk.injEq] at h
    exact h.2.1 ▸ hinv
  · rw [if_neg hq] at h
    cases henv : env.oracle with
    | exc => rw [henv] at h; simp at h
    | empty =>
      rw [henv] at h
      simp only [Except.ok.injEq, Prod.mk.injEq] at h
      exact h.2.1 ▸ hinv
    | price lp =>
      rw [henv] at h
      dsimp only at h
      by_cases hins : st.balance < (q : Money) * lp
      · rw [if_pos hins] at h
        simp only [Except.ok.injEq, Prod.mk.injEq] at h
        exact h.2.1 ▸ hinv
      · rw [if_neg hins] at h
        by_cases hbw : env.faults.balance_write_ok = false
        · rw [if_pos hbw] at h
          simp only [Except.ok.injEq, Prod.mk.injEq] at h
          exact h.2.1 ▸ hinv
        · rw [if_neg hbw] at h
          by_cases hpw : env.faults.position_write_ok = false
          · rw [if_pos hpw] at h
            simp only [Except.ok.injEq, Prod.mk.injEq] at h
            refine h.2.1 ▸ ?_
            split
            · exact hinv
            · exact hinv
          · rw [if_neg hpw] at h
            simp only [Except.ok.injEq, Prod.mk.injEq] at h
            refine h.2.1 ▸ ?_
            split
            · exact posInv_update_position t _ _ hinv
            · exact posInv_update_position t _ _ hinv

/-- Every state the sell body can return keeps all position quantities
positive. -/
theorem execute_sell_body_posInv (env : Env) (st : LedgerState) (t : String) (q : Int)
    (b : Bool) (r : TradeResult) (st2 : LedgerState) (tr : List WriteEvent)
    (h : execute_sell_body env st t q b = Except.ok (r, st2, tr)) (hinv : PosInv st) :
    PosInv st2 := by
  unfold execute_sell_body at h
  by_cases hq : (b = false ∨ q ≤ 0)
  · rw [if_pos hq] at h
    simp only [Except.ok.injEq, Prod.mk.injEq] at h
    exact h.2.1 ▸ hinv
  · rw [if_neg hq] at h
    dsimp only at h
    by_cases hsh : (get_position st t).1 < q
    · rw [if_pos hsh] at h
      simp only [Except.ok.injEq, Prod.mk.injEq] at h
      exact h.2.1 ▸ hinv
    · rw [if_neg hsh] at h
      cases henv : env.oracle with
      | exc => rw [henv] at h; simp at h
      | empty =>
        rw [henv] at h
        simp only [Except.ok.injEq, Prod.mk.injEq] at h
        exact h.2.1 ▸ hinv
      | price lp =>
        rw [henv] at h
        dsimp only at h
        by_cases hbw : env.faults.balance_write_ok = false
        · rw [if_pos hbw] at h
          simp only [Except.ok.injEq, Prod.mk.injEq] at h
          exact h.2.1 ▸ hinv
        · rw [if_neg hbw] at h
          by_cases hpw : env.faults.position_write_ok = false
          · rw [if_pos hpw] at h
            simp only [Except.ok.injEq, Prod.mk.injEq] at h
            refine h.2.1 ▸ ?_
            split
            · exact hinv
            · exact hinv
          · rw [if_neg hpw] at h
            simp only [Except.ok.injEq, Prod.mk.injEq] at h
            refine h.2.1 ▸ ?_
            split
            · exact posInv_update_position t _ _ hinv
            · exact posInv_update_position t _ _ hinv

/-- Lift the buy-body invariant through the retry wrapper. -/
theorem execute_buy_ok_posInv {env : Nat → Env} {st st2 : LedgerState} {t : String}
    {q : Int} {b : Bool} {r : TradeResult} {tr : List WriteEvent}
    (h : execute_buy env st t q b = some (Except.ok (r, st2, tr))) (hinv : PosInv st) :
    PosInv st2 := by
  obtain ⟨i, hi⟩ := retry_go_ok_elim _ _ 2 0 h
  exact execute_buy_body_posInv _ _ _ _ _ _ _ _ hi hinv

/-- Lift the sell-body invariant through the retry wrapper. -/
theorem execute_sell_ok_posInv {env : Nat → Env} {st st2 : LedgerState} {t : String}
    {q : Int} {b : Bool} {r : TradeResult} {tr : List WriteEvent}
    (h : execute_sell env st t q b = some (Except.ok (r, st2, tr))) (hinv : PosInv st) :
    PosInv st2 := by
  obtain ⟨i, hi⟩ := retry_go_ok_elim _ _ 2 0 h
  exact execute_sell_body_posInv _ _ _ _ _ _ _ _ hi hinv

/-- Every reachable ledger state satisfies the position invariant. -/
theorem reachable_posInv {st : LedgerState} (h : Reachable st) : PosInv st := by
  induction h with
  | init => intro e he; simp [initState] at he
  | buy env t q b st st2 r tr _ hrun ih => exact execute_buy_ok_posInv hrun ih
  | sell env t q b st st2 r tr _ hrun ih => exact execute_sell_ok_posInv hrun ih

/-- A completed buy takes reachable states to reachable states. -/
theorem reachable_of_runBuy {env : Nat → Env} {st st2 : LedgerState} {t : String}
    {q : Int} (h : runBuyState env st t q = some st2) (hst : Reachable st) :
    Reachable st2 := by
  unfold runBuyState at h
  cases hb : execute_buy env st t q true with
  | none => rw [hb] at h; simp at h
  | some x =>
    rw [hb] at h
    cases x with
    | error e => simp at h
    | ok y =>
      obtain ⟨r, st2', tr⟩ := y
      simp only [Option.some.injEq] at h
      subst h
      exact Reachable.buy env t q true st _ r tr hst hb

/-- A completed sell takes reachable states to reachable states. -/
theorem reachable_of_runSell {env : Nat → Env} {st st2 : LedgerState} {t : String}
    {q : Int} (h : runSellState env st t q = some st2) (hst : Reachable st) :
    Reachable st2 := by
  unfold runSellState at h
  cases hb : execute_sell env st t q true with
  | none => rw [hb] at h; simp at h
  | some x =>
    rw [hb] at h
    cases x with
    | error e => simp at h
    | ok y =>
      obtain ⟨r, st2', tr⟩ := y
      simp only [Option.some.injEq] at h
      subst h
      exact Reachable.sell env t q true st _ r tr hst hb

/-- C1: a successful execute_buy of q shares at fill price p from prior
position (q0, a0) and prior balance b stores balance b - q*p and position
(q0 + q) shares at average price (q0*a0 + q*p)/(q0 + q). -/
theorem execute_buy_weighted_average (st : LedgerState) (t : String) (q q0 : Int)
    (p a0 : Money) (hpos : get_position st t = (q0, a0)) (hq0 : 0 ≤ q0) (hq : 0 < q)
    (hc : (q : Money) * p ≤ st.balance) :
    ∃ r st2 tr,
      execute_buy (fun _ => goodEnv p) st t q true = some (Except.ok (r, st2, tr)) ∧
      r.success = true ∧
      st2.balance = st.balance - (q : Money) * p ∧
      get_position st2 t =
        (q0 + q, ((q0 : Money) * a0 + (q : Money) * p) / ((q0 + q : Int) : Money)) := by
  have hbody : execute_buy_body (goodEnv p) st t q true =
      Except.ok
        (⟨true, "Bought " ++ toString q ++ " " ++ t ++ " @ $" ++ toString p,
          some t, some q, some p, some ((q : Money) * p), none, none,
          some (st.balance - (q : Money) * p)⟩,
         log_trade
           (update_position (update_account_balance st (st.balance - (q : Money) * p)) t
             (q0 + q) (((q0 : Money) * a0 + (q : Money) * p) / ((q0 + q : Int) : Money)))
           t "BUY" q p,
         [WriteEvent.balanceWrite (st.balance - (q : Money) * p) true,
          WriteEvent.positionWrite t (q0 + q)
            (((q0 : Money) * a0 + (q : Money) * p) / ((q0 + q : Int) : Money)) true,
          WriteEvent.tradeLog t "BUY" q p true]) := by
    simp [execute_buy_body, goodEnv, allOk, not_le.mpr hq, not_lt.mpr hc, hpos]
  refine ⟨_, _, _, retry_go_first_ok _ _ 0 1 hbody, rfl, by simp, ?_⟩
  simp only [get_position_log_trade]
  exact get_position_update_self _ _ _ _ (by omega)

/-- C1 witness: scenario A then B — from the fresh $100,000 account, buying
10 AAPL at $150 gives stateA; buying 5 more at $180 succeeds and yields
position (15, $160.00) and balance $97,600. -/
theorem execute_buy_weighted_average_witness :
    runBuyState (fun _ => goodEnv 150) initState "AAPL" 10 = some stateA ∧
    (∃ r st2 tr,
      execute_buy (fun _ => goodEnv 180) stateA "AAPL" 5 true =
        some (Except.ok (r, st2, tr)) ∧
      r.success = true ∧ st2.balance = 97600 ∧ get_position st2 "AAPL" = (15, 160)) := by
  constructor
  · norm_num [runBuyState, execute_buy, execute_buy_body, retry_go, goodEnv, allOk,
      initState, get_position, update_position, update_account_balance, log_trade,
      stateA, failResult]
  · obtain ⟨r, st2, tr, heq, hs, hbal, hp⟩ :=
      execute_buy_weighted_average stateA "AAPL" 5 10 180 150
        (by norm_num [get_position, stateA, List.find?]) (by norm_num) (by norm_num)
        (by norm_num [stateA])
    refine ⟨r, st2, tr, heq, hs, ?_, ?_⟩
    · rw [hbal]; norm_num [stateA]
    · rw [hp]; norm_num [Prod.ext_iff]

/-- C2: a successful execute_sell of q shares at fill price p from position
(q0, a0) credits the balance with q*p, reports pnl = q*p - q*a0 (proceeds
minus quantity times the pre-sell average price), and leaves the average
price of the remaining position at a0. -/
theorem execute_sell_avg_unchanged_pnl (st : LedgerState) (t : String) (q q0 : Int)
    (p a0 : Money) (hpos : get_position st t = (q0, a0)) (hq : 0 < q) (hle : q ≤ q0) :
    ∃ r st2 tr,
      execute_sell (fun _ => goodEnv p) st t q true = some (Except.ok (r, st2, tr)) ∧
      r.success = true ∧
      st2.balance = st.balance + (q : Money) * p ∧
      r.pnl = some ((q : Money) * p - (q : Money) * a0) ∧
      (q < q0 → get_position st2 t = (q0 - q, a0)) := by
  have hbody : execute_sell_body (goodEnv p) st t q true =
      Except.ok
        (⟨true, "Sold " ++ toString q ++ " " ++ t ++ " @ $" ++ toString p,
          some t, some q, some p, none, some ((q : Money) * p),
          some ((q : Money) * p - (q : Money) * a0),
          some (st.balance + (q : Money) * p)⟩,
         log_trade
           (update_position (update_account_balance st (st.balance + (q : Money) * p)) t
             (q0 - q) a0)
           t "SELL" q p,
         [WriteEvent.balanceWrite (st.balance + (q : Money) * p) true,
          WriteEvent.positionWrite t (q0 - q) a0 true,
          WriteEvent.tradeLog t "SELL" q p true]) := by
    simp [execute_sell_body, goodEnv, allOk, not_le.mpr hq, hpos, not_lt.mpr hle]
  refine ⟨_, _, _, retry_go_first_ok _ _ 0 1 hbody, rfl, by simp, rfl, ?_⟩
  intro hlt
  simp only [get_position_log_trade]
  exact get_position_update_self _ _ _ _ (by omega)

/-- C2 witness: scenario C — from stateB (15 AAPL at $160, balance $97,600),
selling 5 at $200 succeeds with proceeds credited (balance $98,600), realized
pnl $200, and remaining position (10, $160.00). -/
theorem execute_sell_avg_unchanged_pnl_witness :
    ∃ r st2 tr,
      execute_sell (fun _ => goodEnv 200) stateB "AAPL" 5 true =
        some (Except.ok (r, st2, tr)) ∧
      r.success = true ∧ st2.balance = 98600 ∧ r.pnl = some 200 ∧
      get_position st2 "AAPL" = (10, 160) := by
  obtain ⟨r, st2, tr, heq, hs, hbal, hpnl, hp⟩ :=
    execute_sell_avg_unchanged_pnl stateB "AAPL" 5 15 200 160
      (by norm_num [get_position, stateB, List.find?]) (by norm_num) (by norm_num)
  refine ⟨r, st2, tr, heq, hs, ?_, ?_, ?_⟩
  · rw [hbal]; norm_num [stateB]
  · rw [hpnl]; norm_num
  · rw [hp (by norm_num)]; norm_num [Prod.ext_iff]

/-- C3: a buy rejected for insufficient funds and a sell rejected for
insufficient shares return a failure result and leave balance, positions and
the trade log unchanged, with no write attempted (empty write trace); the
sell precondition is checked before the oracle is even consulted, so this
holds under any oracle result and any storage faults. -/
theorem insufficient_funds_shares_no_effect :
    (∀ (p : Money) (faults : StorageFaults) (st : LedgerState) (t : String) (q : Int),
        0 < q → st.balance < (q : Money) * p →
        execute_buy (fun _ => Env.mk (OracleResult.price p) faults) st t q true =
          some (Except.ok (failResult "Insufficient funds.", st, []))) ∧
    (∀ (env : Nat → Env) (st : LedgerState) (t : String) (q : Int),
        0 < q → (get_position st t).1 < q →
        execute_sell env st t q true =
          some (Except.ok (failResult ("Not enough shares of " ++ t ++ " to sell."), st, []))) := by
  constructor
  · intro p faults st t q hq hins
    have hbody : execute_buy_body ⟨OracleResult.price p, faults⟩ st t q true =
        Except.ok (failResult "Insufficient funds.", st, []) := by
      simp [execute_buy_body, not_le.mpr hq, hins]
    exact retry_go_first_ok _ _ 0 1 hbody
  · intro env st t q hq hsh
    have hbody : execute_sell_body (env 0) st t q true =
        Except.ok (failResult ("Not enough shares of " ++ t ++ " to sell."), st, []) := by
      simp [execute_sell_body, not_le.mpr hq, hsh]
    exact retry_go_first_ok _ _ 0 1 hbody

/-- C3 witness: scenario E — buying 1,000,000 shares at $150 from the fresh
account fails for insufficient funds with no state change; scenario D —
selling 10 shares while holding none fails for insufficient shares with no
state change. -/
theorem insufficient_funds_shares_no_effect_witness :
    execute_buy (fun _ => Env.mk (OracleResult.price 150) allOk) initState "AAPL" 1000000 true =
      some (Except.ok (failResult "Insufficient funds.", initState, [])) ∧
    execute_sell (fun _ => goodEnv 200) initState "AAPL" 10 true =
      some (Except.ok (failResult ("Not enough shares of " ++ "AAPL" ++ " to sell."),
        initState, [])) := by
  constructor
  · exact insufficient_funds_shares_no_effect.1 150 allOk initState "AAPL" 1000000
      (by norm_num) (by norm_num [initState])
  · exact insufficient_funds_shares_no_effect.2 (fun _ => goodEnv 200) initState "AAPL" 10
      (by norm_num) (by norm_num [get_position, initState, List.find?])

/-- C5: when the balance write succeeds but the position write fails, both
engine operations issue exactly one compensating balance write carrying the
pre-mutation balance (its success governed by c, since the engine ignores
its return value) and return the storage-error failure result; when the
compensating write succeeds the ledger is fully restored. -/
theorem position_write_failure_compensation :
    (∀ (p : Money) (c : Bool) (st : LedgerState) (t : String) (q q0 : Int) (a0 : Money),
        get_position st t = (q0, a0) → 0 < q → (q : Money) * p ≤ st.balance →
        ∃ r st2,
          execute_buy (fun _ => Env.mk (OracleResult.price p) ⟨true, false, c, true⟩)
              st t q true =
            some (Except.ok (r, st2,
              [WriteEvent.balanceWrite (st.balance - (q : Money) * p) true,
               WriteEvent.positionWrite t (q0 + q)
                 (((q0 : Money) * a0 + (q : Money) * p) / ((q0 + q : Int) : Money)) false,
               WriteEvent.balanceWrite st.balance c])) ∧
          r = failResult "Database error updating position." ∧
          (c = true → st2 = st)) ∧
    (∀ (p : Money) (c : Bool) (st : LedgerState) (t : String) (q q0 : Int) (a0 : Money),
        get_position st t = (q0, a0) → 0 < q → q ≤ q0 →
        ∃ r st2,
          execute_sell (fun _ => Env.mk (OracleResult.price p) ⟨true, false, c, true⟩)
              st t q true =
            some (Except.ok (r, st2,
              [WriteEvent.balanceWrite (st.balance + (q : Money) * p) true,
               WriteEvent.positionWrite t (q0 - q) a0 false,
               WriteEvent.balanceWrite st.balance c])) ∧
          r = failResult "Database error updating position." ∧
          (c = true → st2 = st)) := by
  constructor
  · intro p c st t q q0 a0 hpos hq hc
    have hbody : execute_buy_body (Env.mk (OracleResult.price p) ⟨true, false, c, true⟩)
        st t q true =
        Except.ok (failResult "Database error updating position.",
          (if c = true then
            update_account_balance (update_account_balance st (st.balance - (q : Money) * p))
              st.balance
          else update_account_balance st (st.balance - (q : Money) * p)),
          [WriteEvent.balanceWrite (st.balance - (q : Money) * p) true,
           WriteEvent.positionWrite t (q0 + q)
             (((q0 : Money) * a0 + (q : Money) * p) / ((q0 + q : Int) : Money)) false,
           WriteEvent.balanceWrite st.balance c]) := by
      simp [execute_buy_body, not_le.mpr hq, not_lt.mpr hc, hpos]
    refine ⟨_, _, retry_go_first_ok _ _ 0 1 hbody, rfl, ?_⟩
    intro hcomp
    subst hcomp
    rfl
  · intro p c st t q q0 a0 hpos hq hle
    have hbody : execute_sell_body (Env.mk (OracleResult.price p) ⟨true, false, c, true⟩)
        st t q true =
        Except.ok (failResult "Database error updating position.",
          (if c = true then
            update_account_balance (update_account_balance st (st.balance + (q : Money) * p))
              st.balance
          else update_account_balance st (st.balance + (q : Money) * p)),
          [WriteEvent.balanceWrite (st.balance + (q : Money) * p) true,
           WriteEvent.positionWrite t (q0 - q) a0 false,
           WriteEvent.balanceWrite st.balance c]) := by
      simp [execute_sell_body, not_le.mpr hq, hpos, not_lt.mpr hle]
    refine ⟨_, _, retry_go_first_ok _ _ 0 1 hbody, rfl, ?_⟩
    intro hcomp
    subst hcomp
    rfl

/-- C5 witness: from stateA (10 AAPL at $150, balance $98,500), buying 5 at
$180 with the position write failing debits $900, attempts the position
write, issues one compensating write of $98,500, returns the failure, and
restores the ledger to stateA. -/
theorem position_write_failure_compensation_witness :
    ∃ r st2,
      execute_buy (fun _ => Env.mk (OracleResult.price 180) ⟨true, false, true, true⟩)
          stateA "AAPL" 5 true =
        some (Except.ok (r, st2,
          [WriteEvent.balanceWrite 97600 true,
           WriteEvent.positionWrite "AAPL" 15 160 false,
           WriteEvent.balanceWrite 98500 true])) ∧
      r = failResult "Database error updating position." ∧ st2 = stateA := by
  obtain ⟨r, st2, heq, hr, hcomp⟩ :=
    position_write_failure_compensation.1 180 true stateA "AAPL" 5 10 150
      (by norm_num [get_position, stateA, List.find?]) (by norm_num) (by norm_num [stateA])
  have h2 := heq
  norm_num [stateA] at h2
  exact ⟨r, st2, h2, hr, hcomp rfl⟩

/-- C6 counterexample: with the price oracle raising on both attempts,
execute_buy of 1 AAPL from the fresh account re-raises the exception to its
caller instead of returning a structured result: the body has no try/except
and the retry decorator re-raises once attempts are exhausted. -/
theorem oracle_exception_propagates :
    execute_buy (fun _ => Env.mk OracleResult.exc allOk) initState "AAPL" 1 true =
      some (Except.error ()) := by
  have hbody : execute_buy_body (Env.mk OracleResult.exc allOk) initState "AAPL" 1 true =
      Except.error () := by
    norm_num [execute_buy_body]
  exact retry_go_both_exc _ 0 hbody hbody

/-- C6 amended: both operations return a structured result with success and
message whenever the price oracle does not raise, and an empty oracle result
is mapped to the could-not-fetch-price failure path with no state change;
an oracle exception, however, escapes the body and is re-raised by the retry
wrapper rather than being converted to a structured failure. -/
theorem structured_results_amended :
    (∀ (env : Nat → Env) (st : LedgerState) (t : String) (q : Int) (b : Bool),
        (env 0).oracle ≠ OracleResult.exc →
        ∃ r st2 tr, execute_buy env st t q b = some (Except.ok (r, st2, tr))) ∧
    (∀ (env : Nat → Env) (st : LedgerState) (t : String) (q : Int) (b : Bool),
        (env 0).oracle ≠ OracleResult.exc →
        ∃ r st2 tr, execute_sell env st t q b = some (Except.ok (r, st2, tr))) ∧
    (∀ (env : Nat → Env) (st : LedgerState) (t : String) (q : Int),
        (env 0).oracle = OracleResult.empty → 0 < q →
        execute_buy env st t q true =
          some (Except.ok (failResult ("Could not fetch price for " ++ t ++ "."), st, []))) ∧
    (∀ (env : Nat → Env) (st : LedgerState) (t : String) (q : Int),
        (env 0).oracle = OracleResult.empty → 0 < q → q ≤ (get_position st t).1 →
        execute_sell env st t q true =
          some (Except.ok (failResult ("Could not fetch price for " ++ t ++ "."), st, []))) := by
  refine ⟨?_, ?_, ?_, ?_⟩
  · intro env st t q b h
    obtain ⟨x, hx⟩ := execute_buy_body_no_exc (env 0) st t q b h
    obtain ⟨r, st2, tr⟩ := x
    exact ⟨r, st2, tr, retry_go_first_ok _ _ 0 1 hx⟩
  · intro env st t q b h
    obtain ⟨x, hx⟩ := execute_sell_body_no_exc (env 0) st t q b h
    obtain ⟨r, st2, tr⟩ := x
    exact ⟨r, st2, tr, retry_go_first_ok _ _ 0 1 hx⟩
  · intro env st t q h hq
    have hbody : execute_buy_body (env 0) st t q true =
        Except.ok (failResult ("Could not fetch price for " ++ t ++ "."), st, []) := by
      simp [execute_buy_body, not_le.mpr hq, h]
    exact retry_go_first_ok _ _ 0 1 hbody
  · intro env st t q h hq hle
    have hbody : execute_sell_body (env 0) st t q true =
        Except.ok (failResult ("Could not fetch price for " ++ t ++ "."), st, []) := by
      simp [execute_sell_body, not_le.mpr hq, not_lt.mpr hle, h]
    exact retry_go_first_ok _ _ 0 1 hbody

/-- C6 amended witness: an empty price result for 1 AAPL from the fresh
account yields the structured could-not-fetch-price failure with the ledger
untouched. -/
theorem structured_results_amended_witness :
    execute_buy (fun _ => Env.mk OracleResult.empty allOk) initState "AAPL" 1 true =
      some (Except.ok (failResult ("Could not fetch price for " ++ "AAPL" ++ "."),
        initState, [])) :=
  structured_results_amended.2.2.1 (fun _ => Env.mk OracleResult.empty allOk)
    initState "AAPL" 1 rfl (by norm_num)

/-- C7 counterexample: failures surfaced as returned values are not retried.
Attempt 0 sees an empty price fetch while attempt 1 would have succeeded at
$150, yet the failure is returned immediately; likewise a failed balance
write on attempt 0 is surfaced immediately even though attempt 1 would have
succeeded. -/
theorem returned_failure_not_retried :
    execute_buy (fun i => if i = 0 then Env.mk OracleResult.empty allOk else goodEnv 150)
        initState "AAPL" 1 true =
      some (Except.ok (failResult ("Could not fetch price for " ++ "AAPL" ++ "."),
        initState, [])) ∧
    execute_buy
        (fun i => if i = 0 then Env.mk (OracleResult.price 150) ⟨false, true, true, true⟩
          else goodEnv 150)
        initState "AAPL" 1 true =
      some (Except.ok (failResult "Database error updating balance.", initState,
        [WriteEvent.balanceWrite 99850 false])) := by
  constructor
  · have hbody : execute_buy_body (Env.mk OracleResult.empty allOk) initState "AAPL" 1 true =
        Except.ok (failResult ("Could not fetch price for " ++ "AAPL" ++ "."),
          initState, []) := by
      norm_num [execute_buy_body]
    exact retry_go_first_ok _ _ 0 1 hbody
  · have hbody : execute_buy_body (Env.mk (OracleResult.price 150) ⟨false, true, true, true⟩)
        initState "AAPL" 1 true =
        Except.ok (failResult "Database error updating balance.", initState,
          [WriteEvent.balanceWrite 99850 false]) := by
      norm_num [execute_buy_body, initState]
    exact retry_go_first_ok _ _ 0 1 hbody

/-- C7 amended: the retry decorator retries only raised exceptions, up to
max_attempts = 2.  A body attempt that returns — a success, a precondition
failure such as an invalid quantity, a None price fetch, or a False storage
write — is surfaced from the first attempt with no retry; an attempt that
raises is retried once and the value of the second attempt surfaced; exceptions
on both attempts re-raise to the caller. -/
theorem retry_only_exceptions :
    (∀ (env : Nat → Env) (st : LedgerState) (t : String) (q : Int) (b : Bool) x,
        execute_buy_body (env 0) st t q b = Except.ok x →
        execute_buy env st t q b = some (Except.ok x)) ∧
    (∀ (env : Nat → Env) (st : LedgerState) (t : String) (q : Int) (b : Bool) x,
        execute_buy_body (env 0) st t q b = Except.error () →
        execute_buy_body (env 1) st t q b = Except.ok x →
        execute_buy env st t q b = some (Except.ok x)) ∧
    (∀ (env : Nat → Env) (st : LedgerState) (t : String) (q : Int) (b : Bool),
        execute_buy_body (env 0) st t q b = Except.error () →
        execute_buy_body (env 1) st t q b = Except.error () →
        execute_buy env st t q b = some (Except.error ())) ∧
    (∀ (env : Nat → Env) (st : LedgerState) (t : String) (q : Int) (b : Bool) x,
        execute_sell_body (env 0) st t q b = Except.ok x →
        execute_sell env st t q b = some (Except.ok x)) ∧
    (∀ (env : Nat → Env) (st : LedgerState) (t : String) (q : Int) (b : Bool) x,
        execute_sell_body (env 0) st t q b = Except.error () →
        execute_sell_body (env 1) st t q b = Except.ok x →
        execute_sell env st t q b = some (Except.ok x)) ∧
    (∀ (env : Nat → Env) (st : LedgerState) (t : String) (q : Int) (b : Bool),
        execute_sell_body (env 0) st t q b = Except.error () →
        execute_sell_body (env 1) st t q b = Except.error () →
        execute_sell env st t q b = some (Except.error ())) ∧
    (∀ (env : Nat → Env) (st : LedgerState) (t : String) (q : Int), q ≤ 0 →
        execute_buy env st t q true =
          some (Except.ok (failResult "Quantity must be a positive integer.", st, []))) := by
  refine ⟨?_, ?_, ?_, ?_, ?_, ?_, ?_⟩
  · intro env st t q b x h
    exact retry_go_first_ok _ _ 0 1 h
  · intro env st t q b x h0 h1
    exact retry_go_second_ok _ _ 0 h0 h1
  · intro env st t q b h0 h1
    exact retry_go_both_exc _ 0 h0 h1
  · intro env st t q b x h
    exact retry_go_first_ok _ _ 0 1 h
  · intro env st t q b x h0 h1
    exact retry_go_second_ok _ _ 0 h0 h1
  · intro env st t q b h0 h1
    exact retry_go_both_exc _ 0 h0 h1
  · intro env st t q hq
    have hbody : execute_buy_body (env 0) st t q true =
        Except.ok (failResult "Quantity must be a positive integer.", st, []) := by
      simp [execute_buy_body, hq]
    exact retry_go_first_ok _ _ 0 1 hbody

/-- C7 amended witness: buying a quantity of 0 is rejected as an invalid
quantity straight from the first attempt. -/
theorem retry_only_exceptions_witness :
    execute_buy (fun _ => goodEnv 150) initState "AAPL" 0 true =
      some (Except.ok (failResult "Quantity must be a positive integer.", initState, [])) :=
  retry_only_exceptions.2.2.2.2.2.2 (fun _ => goodEnv 150) initState "AAPL" 0 (by norm_num)

/-- C4: in every reachable ledger state each stored position row has
quantity > 0; update_position called with a non-positive quantity deletes
the row and get_position returns (0, 0) for any ticker with no stored row;
and a sell of the full held quantity succeeds and removes the row, after
which get_position returns (0, 0). -/
theorem position_iff_positive_quantity :
    (∀ st : LedgerState, Reachable st → ∀ e ∈ st.positions, 0 < e.2.1) ∧
    (∀ (st : LedgerState) (t : String) (q : Int) (a : Money), q ≤ 0 →
        (update_position st t q a).positions.find? (fun e => e.1 == t) = none) ∧
    (∀ (st : LedgerState) (t : String),
        st.positions.find? (fun e => e.1 == t) = none → get_position st t = (0, 0)) ∧
    (∀ (p : Money) (st : LedgerState) (t : String) (q0 : Int) (a0 : Money),
        get_position st t = (q0, a0) → 0 < q0 →
        ∃ r st2 tr,
          execute_sell (fun _ => goodEnv p) st t q0 true = some (Except.ok (r, st2, tr)) ∧
          r.success = true ∧
          st2.positions.find? (fun e => e.1 == t) = none ∧
          get_position st2 t = (0, 0)) := by
  refine ⟨?_, ?_, ?_, ?_⟩
  · intro st h
    exact reachable_posInv h
  · intro st t q a hq
    exact find_update_position_nonpos st t q a hq
  · intro st t h
    exact get_position_of_find_none st t h
  · intro p st t q0 a0 hpos hq
    have hbody : execute_sell_body (goodEnv p) st t q0 true =
        Except.ok
          (⟨true, "Sold " ++ toString q0 ++ " " ++ t ++ " @ $" ++ toString p,
            some t, some q0, some p, none, some ((q0 : Money) * p),
            some ((q0 : Money) * p - (q0 : Money) * a0),
            some (st.balance + (q0 : Money) * p)⟩,
           log_trade
             (update_position (update_account_balance st (st.balance + (q0 : Money) * p)) t
               (q0 - q0) a0)
             t "SELL" q0 p,
           [WriteEvent.balanceWrite (st.balance + (q0 : Money) * p) true,
            WriteEvent.positionWrite t (q0 - q0) a0 true,
            WriteEvent.tradeLog t "SELL" q0 p true]) := by
      simp [execute_sell_body, goodEnv, allOk, not_le.mpr hq, hpos, not_lt.mpr (le_refl q0)]
    refine ⟨_, _, _, retry_go_first_ok _ _ 0 1 hbody, rfl, ?_, ?_⟩
    · exact find_update_position_nonpos _ _ _ _ (by omega)
    · exact get_position_of_find_none _ _ (find_update_position_nonpos _ _ _ _ (by omega))

/-- C4 witness: stateA is reachable (one buy from the fresh account) and its
single row ("AAPL", 10, 150) has positive quantity; selling the full 10
shares at $200 succeeds, removes the AAPL row, and get_position then reads
(0, 0). -/
theorem position_iff_positive_quantity_witness :
    (0 : Int) < 10 ∧
    (∃ r st2 tr,
      execute_sell (fun _ => goodEnv 200) stateA "AAPL" 10 true =
        some (Except.ok (r, st2, tr)) ∧
      r.success = true ∧
      st2.positions.find? (fun e => e.1 == "AAPL") = none ∧
      get_position st2 "AAPL" = (0, 0)) := by
  have hrun : runBuyState (fun _ => goodEnv 150) initState "AAPL" 10 = some stateA := by
    norm_num [runBuyState, execute_buy, execute_buy_body, retry_go,
      goodEnv, allOk, initState, get_position, update_position, update_account_balance,
      log_trade, stateA, failResult]
  have hA : Reachable stateA := reachable_of_runBuy hrun Reachable.init
  constructor
  · exact position_iff_positive_quantity.1 stateA hA ("AAPL", 10, 150) (by norm_num [stateA])
  · exact position_iff_positive_quantity.2.2.2 200 stateA "AAPL" 10 150
      (by norm_num [get_position, stateA, List.find?]) (by norm_num)

/-- C8 (code bug): the reset step of load_demo_data fails with AttributeError
because it calls db.get_connection(), which database.py does not define, so
the inlined reset SQL never runs; that SQL itself (second conjunct) would
clear trades and positions and restore balance to initial_balance, leaving
initial_balance unchanged, exactly as specified. -/
theorem load_demo_data_reset_attribute_error :
    load_demo_data_reset initState =
      Except.error "AttributeError: module database has no attribute get_connection" ∧
    reset_ledger ⟨123, 100000, [("AAPL", 10, 150)], [⟨"AAPL", "BUY", 10, 150, 1500⟩]⟩ =
      ⟨100000, 100000, [], []⟩ := by
  constructor
  · rfl
  · rfl

/-- C9 counterexample: with a stored initial_balance of -1000 (cash 0, no
positions), the initial_balance of the summary is non-zero yet pnl_percent is 0,
not pnl / initial_balance * 100 = -100: the code tests initial_balance > 0,
so every non-positive stored value - not only 0 - takes the 0 branch. -/
theorem pnl_percent_negative_initial :
    (get_account_info (fun _ => none) false ⟨0, -1000, [], []⟩).initial_balance ≠ 0 ∧
    (get_account_info (fun _ => none) false ⟨0, -1000, [], []⟩).pnl_percent ≠
      (get_account_info (fun _ => none) false ⟨0, -1000, [], []⟩).pnl /
        (get_account_info (fun _ => none) false ⟨0, -1000, [], []⟩).initial_balance * 100 := by
  norm_num [get_account_info, get_portfolio_value, zeroAccountInfo]

/-- C9 amended: the summary satisfies pnl = total_equity - initial_balance,
and pnl_percent = pnl / initial_balance * 100 whenever initial_balance > 0,
while pnl_percent is 0 for every non-positive initial_balance (zero and
negative alike), so no division by zero is ever performed. -/
theorem account_summary_pnl_amended :
    ∀ (prices : String → Option Money) (st : LedgerState),
      (get_account_info prices false st).pnl =
        (get_account_info prices false st).total_equity -
          (get_account_info prices false st).initial_balance ∧
      (0 < (get_account_info prices false st).initial_balance →
        (get_account_info prices false st).pnl_percent =
          (get_account_info prices false st).pnl /
            (get_account_info prices false st).initial_balance * 100) ∧
      ((get_account_info prices false st).initial_balance ≤ 0 →
        (get_account_info prices false st).pnl_percent = 0) := by
  intro prices st
  have hrw : (get_account_info prices false st).pnl_percent =
      if 0 < st.initial_balance then
        (get_account_info prices false st).pnl / st.initial_balance * 100
      else 0 := rfl
  refine ⟨rfl, ?_, ?_⟩
  · intro h
    have h' : 0 < st.initial_balance := h
    rw [hrw, if_pos h']
    rfl
  · intro h
    have h' : st.initial_balance ≤ 0 := h
    rw [hrw, if_neg (not_lt.mpr h')]

/-- C9 amended witness: on the fresh account (initial_balance $100,000 > 0)
the percentage formula applies. -/
theorem account_summary_pnl_amended_witness :
    (get_account_info (fun _ => none) false initState).pnl_percent =
      (get_account_info (fun _ => none) false initState).pnl /
        (get_account_info (fun _ => none) false initState).initial_balance * 100 :=
  (account_summary_pnl_amended (fun _ => none) initState).2.1
    (by norm_num [get_account_info, initState])

/-- C10: whenever some step of assembling the account summary raised an
exception, get_account_info catches it and returns the six fields
cash_balance, portfolio_value, total_equity, initial_balance, pnl and
pnl_percent all equal to 0.0; being a total function of its inputs, it never
propagates the exception to its caller. -/
theorem get_account_info_exception_zeros :
    ∀ (prices : String → Option Money) (st : LedgerState),
      get_account_info prices true st = ⟨0, 0, 0, 0, 0, 0⟩ := by
  intro prices st
  rfl
